import Mathlib

/-!
Verification development for the `cdk-aws-otlp-forwarder-cwl-lambda` repository.

The CDK stack (`src/stacks/my-stack.ts`) provisions a demo vendor secret, an
account-wide CloudWatch Logs subscription filter, and the OTLP forwarder Lambda
(whose Rust binary is referenced by manifest path but not present in the visible
source). Definitions below embed the stack's concrete configuration values
verbatim; components of the forwarder itself that are absent from the source are
modelled from the specification and carry a doc comment saying so.
-/

/-- A minimal JSON value model, sufficient for the message bodies, secret
values and handler responses appearing in this repository. -/
inductive Json where
  | str : String → Json
  | num : Int → Json
  | bool : Bool → Json
  | null : Json
  | arr : List Json → Json
  | obj : List (String × Json) → Json
deriving Repr

/-- First-match field lookup in a JSON object's field list. -/
def lookupField : List (String × Json) → String → Option Json
  | [], _ => none
  | (k, v) :: rest, key => if k == key then some v else lookupField rest key

/-- Field access on a JSON value: `some` only for objects holding the key. -/
def getField (j : Json) (key : String) : Option Json :=
  match j with
  | .obj fields => lookupField fields key
  | _ => none

/-! ## Stack constants (embedded from `src/stacks/my-stack.ts`) -/

/-- `COLLECTORS_SECRETS_KEY_PREFIX` constant of `my-stack.ts` (line 36). -/
def collectorsSecretsKeyBase : String := "serverless-otlp-forwarder/keys/"

/-- The `secretName` of the `VendorSecret` construct (line 53):
`` `${COLLECTORS_SECRETS_KEY_PREFIX}vendor` ``. -/
def vendorSecretName : String := collectorsSecretsKeyBase ++ "vendor"

/-- The `secretStringValue` of the `VendorSecret` construct (lines 55-61):
`JSON.stringify({name: "vendor", endpoint: env.OTEL_EXPORTER_OTLP_ENDPOINT,
auth: env.OTEL_EXPORTER_OTLP_HEADERS})`, as a structured JSON value,
parameterised by the two deployment-environment strings. -/
def vendorSecretJson (endpoint headersEnv : String) : Json :=
  Json.obj
    [("name", Json.str "vendor"),
     ("endpoint", Json.str endpoint),
     ("auth", Json.str headersEnv)]

/-- The forwarder Lambda's `functionName` (line 212). -/
def forwarderFunctionName : String := "forwarder-lambda"

/-- The forwarder Lambda's environment block (lines 220-228), parameterised by
the deployment-environment endpoint and headers strings. -/
def forwarderEnvironment (endpoint headersEnv : String) : List (String × String) :=
  [("COLLECTORS_CACHE_TTL_SECONDS", "300"),
   ("COLLECTORS_SECRETS_KEY_PREFIX", collectorsSecretsKeyBase),
   ("LAMBDA_EXTENSION_SPAN_PROCESSOR_MODE", "async"),
   ("LAMBDA_TRACING_ENABLE_FMT_LAYER", "false"),
   ("OTEL_EXPORTER_OTLP_ENDPOINT", endpoint),
   ("OTEL_EXPORTER_OTLP_HEADERS", headersEnv),
   ("OTEL_EXPORTER_OTLP_PROTOCOL", "http/protobuf")]

/-- The `CfnAccountPolicy` properties of `ForwarderLambdaAccountSubFilter`
(lines 256-270) as plain data. -/
structure AccountPolicy where
  policyName : String
  filterPattern : String
  distribution : String
  policyType : String
  policyScope : String
  selectionCriteria : String
deriving Repr, DecidableEq

/-- The account-wide subscription-filter policy the stack creates
(lines 256-270 of `my-stack.ts`). -/
def forwarderLambdaAccountSubFilter : AccountPolicy :=
  { policyName := "ForwarderLambdaAccountSubFilter"
    filterPattern := "\x7b $.__otel_otlp_stdout = * \x7d"
    distribution := "Random"
    policyType := "SUBSCRIPTION_FILTER_POLICY"
    policyScope := "ALL"
    selectionCriteria :=
      "LogGroupName NOT IN [\"/aws/lambda/" ++ forwarderFunctionName ++ "\"]" }

/-! ## Secret-value parsing (C1) -/

/-- The secret-value shape the spec claims: `{endpoint: string, headers:
mapping of string to string}`. -/
structure CollectorSecret where
  endpoint : String
  headers : List (String × String)
deriving Repr, DecidableEq

/-- Interpret a JSON object field list as a string-to-string mapping; `none`
if any value is not a JSON string. -/
def asHeaderMap : List (String × Json) → Option (List (String × String))
  | [] => some []
  | (k, Json.str v) :: rest =>
      match asHeaderMap rest with
      | some m => some ((k, v) :: m)
      | none => none
  | _ :: _ => none

/-- Modelled from the spec: the secret-store value parser of the forwarder's
Credential Cache, which is not present in the visible source. The spec gives
the expected secret value shape `\x7bendpoint: string, headers: mapping of
string to string\x7d`; parsing fails (`none`) on any other shape. -/
def parseCollectorSecret (j : Json) : Option CollectorSecret :=
  match getField j "endpoint", getField j "headers" with
  | some (Json.str e), some (Json.obj hs) =>
      match asHeaderMap hs with
      | some m => some { endpoint := e, headers := m }
      | none => none
  | _, _ => none

/-- Parser for the shape the stack actually stores: `\x7bname, endpoint, auth\x7d`
with `auth` a single string (the raw OTEL_EXPORTER_OTLP_HEADERS value). -/
def parseStoredVendorSecret (j : Json) : Option (String × String) :=
  match getField j "endpoint", getField j "auth" with
  | some (Json.str e), some (Json.str a) => some (e, a)
  | _, _ => none

/-! ## Credential Cache (C3, C7, C8) -/

/-- The `\x7bendpoint, headers, protocol\x7d` triple resolved for a vendor. The
protocol tag is kept as a string (`http/protobuf` or `http/json`). -/
structure CollectorConfig where
  endpoint : String
  headers : List (String × String)
  protocol : String
deriving Repr, DecidableEq

/-- A cached resolution: the config plus the time it was fetched. -/
structure CacheEntry where
  value : CollectorConfig
  fetchedAt : Nat
deriving Repr, DecidableEq

/-- The in-memory credential cache, an association list keyed by vendorKey. -/
def CacheState := List (String × CacheEntry)

/-- Cache lookup by vendorKey (first match). -/
def cacheLookup : CacheState → String → Option CacheEntry
  | [], _ => none
  | (k, e) :: rest, key => if k == key then some e else cacheLookup rest key

/-- Replace (or insert) the entry for a vendorKey. -/
def cacheInsert : CacheState → String → CacheEntry → CacheState
  | [], key, e => [(key, e)]
  | (k, old) :: rest, key, e =>
      if k == key then (k, e) :: rest else (k, old) :: cacheInsert rest key e

/-- The deterministic secret-store key for a vendorKey: the configured
prefix concatenated with the vendorKey. -/
def secretKeyFor (keyBase vendorKey : String) : String := keyBase ++ vendorKey

/-- Outcome of one `resolve` call: the resolved config (`none` meaning
`UnknownVendor`/fetch failure), the cache state afterwards, and the list of
secret-store keys fetched during the call. -/
structure ResolveResult where
  result : Option CollectorConfig
  state : CacheState
  fetched : List String

/-- Modelled from the spec: the Credential Cache's `resolve(vendorKey)`,
absent from the visible source. The in-memory cache is checked first; on a
hit with `now - fetchedAt <= ttl` it returns immediately with no fetch; on a
miss or stale entry it fetches the secret store at the key
`\x7bconfigured prefix\x7d\x7bvendorKey\x7d`, populates/replaces the entry and returns.
`fetch` abstracts the secret store (`none` = no secret / fetch failure). -/
def resolve (fetch : String → Option CollectorConfig) (keyBase : String)
    (ttl now : Nat) (st : CacheState) (vendorKey : String) : ResolveResult :=
  match cacheLookup st vendorKey with
  | some e =>
      if now - e.fetchedAt ≤ ttl then
        { result := some e.value, state := st, fetched := [] }
      else
        resolveFetch fetch keyBase now st vendorKey
  | none => resolveFetch fetch keyBase now st vendorKey
where
  resolveFetch (fetch : String → Option CollectorConfig) (keyBase : String)
      (now : Nat) (st : CacheState) (vendorKey : String) : ResolveResult :=
    match fetch (secretKeyFor keyBase vendorKey) with
    | some cfg =>
        { result := some cfg
          state := cacheInsert st vendorKey { value := cfg, fetchedAt := now }
          fetched := [secretKeyFor keyBase vendorKey] }
    | none =>
        { result := none, state := st
          fetched := [secretKeyFor keyBase vendorKey] }

/-- Sequentially resolve a list of vendorKeys, threading the cache state and
accumulating every secret-store key fetched. -/
def resolveAll (fetch : String → Option CollectorConfig) (keyBase : String)
    (ttl now : Nat) : CacheState → List String → CacheState × List String
  | st, [] => (st, [])
  | st, k :: rest =>
      ((resolveAll fetch keyBase ttl now (resolve fetch keyBase ttl now st k).state rest).1,
       (resolve fetch keyBase ttl now st k).fetched
         ++ (resolveAll fetch keyBase ttl now (resolve fetch keyBase ttl now st k).state rest).2)

/-- Modelled from the spec: batch-scoped resolution. The Resolving state calls
the Credential Cache once "for each distinct VendorKey produced by decoding",
so the vendorKeys of a batch are deduplicated before resolution. -/
def resolveBatch (fetch : String → Option CollectorConfig) (keyBase : String)
    (ttl now : Nat) (st : CacheState) (vendorKeys : List String) :
    CacheState × List String :=
  resolveAll fetch keyBase ttl now st vendorKeys.dedup

/-! ## Log Event Decoder (C4) -/

/-- One delivered log line: timestamp, owning log-group name, raw message
body. -/
structure LogRecord where
  timestamp : Nat
  logGroup : String
  message : String
deriving Repr, DecidableEq

/-- The raw payload received per invocation: an ordered sequence of
LogRecord, a log-group identifier, and an owner account identifier. -/
structure DeliveryBatch where
  logGroup : String
  owner : String
  records : List LogRecord
deriving Repr, DecidableEq

/-- The sentinel marker field of OTLP-bearing log records. -/
def sentinelField : String := "__otel_otlp_stdout"

/-- The primitive decoders the Log Event Decoder composes, abstracted as
total functions into `Option` (`none` = that step fails). `β` is the type of
decoded OTLP payloads. -/
structure DecoderPrims (β : Type) where
  jsonParse : String → Option Json
  b64decode : String → Option (List Nat)
  pbDecode : List Nat → Option β
  vendorKeyOf : LogRecord → String

/-- Per-record decoder outcome: silently skipped (no JSON / no sentinel),
per-record decode error, or a decoded payload tagged with its vendorKey. -/
inductive RecordOutcome (β : Type) where
  | skip : RecordOutcome β
  | err : RecordOutcome β
  | ok : String → β → RecordOutcome β
deriving Repr

/-- Modelled from the spec: the Decoder's per-record step, absent from the
visible source. JSON-parse failure or a missing sentinel field skips the
record silently; a sentinel value that is not a string, or base64 or
protocol-buffer decode failure, is a per-record `DecodeError`; otherwise the
record yields `(vendorKey, payload)`. -/
def decodeRecord {β : Type} (P : DecoderPrims β) (r : LogRecord) :
    RecordOutcome β :=
  match P.jsonParse r.message with
  | none => .skip
  | some j =>
      match getField j sentinelField with
      | none => .skip
      | some (Json.str s) =>
          match P.b64decode s with
          | none => .err
          | some bytes =>
              match P.pbDecode bytes with
              | none => .err
              | some p => .ok (P.vendorKeyOf r) p
      | some _ => .err

/-- Modelled from the spec: the Decoder over a DeliveryBatch — one pass over
the records, producing the sequence of `(vendorKey, payload)` pairs plus the
count of per-record decode errors. A failing record never aborts the batch. -/
def decodeBatch {β : Type} (P : DecoderPrims β) (batch : DeliveryBatch) :
    List (String × β) × Nat :=
  decodeRecords P batch.records
where
  decodeRecords (P : DecoderPrims β) : List LogRecord → List (String × β) × Nat
    | [] => ([], 0)
    | r :: rest =>
        match decodeRecord P r with
        | .skip => decodeRecords P rest
        | .err => ((decodeRecords P rest).1, (decodeRecords P rest).2 + 1)
        | .ok v p => ((v, p) :: (decodeRecords P rest).1, (decodeRecords P rest).2)

/-! ## Span Batcher/Exporter retry policy (C5) -/

/-- The observable outcome of one network send attempt. -/
inductive AttemptOutcome where
  | connFailure : AttemptOutcome
  | httpStatus : Nat → AttemptOutcome
deriving Repr, DecidableEq

/-- An attempt succeeded when it returned an HTTP 2xx status. -/
def attemptSucceeded : AttemptOutcome → Bool
  | .connFailure => false
  | .httpStatus c => 200 ≤ c && c < 300

/-- Retriable outcomes: connection failure, HTTP 5xx, or HTTP 429. -/
def retriable : AttemptOutcome → Bool
  | .connFailure => true
  | .httpStatus c => (500 ≤ c && c ≤ 599) || c == 429

/-- The bounded retry budget: at most 3 retries after the initial attempt. -/
def maxRetries : Nat := 3

/-- Result of one outbound request after the retry loop: success, or failure
carrying the last attempt's outcome; either way the number of attempts made. -/
inductive SendResult where
  | success : Nat → SendResult
  | failure : AttemptOutcome → Nat → SendResult
deriving Repr, DecidableEq

/-- Modelled from the spec: the Exporter's retry loop, absent from the
visible source. `attempts i` is the network's response to the i-th attempt
(the backoff delay between attempts has no observable effect here). The loop
re-attempts exactly when the outcome is retriable and retry budget remains;
any non-retriable failure terminates the request immediately. `budget` counts
the retries still allowed, `i` the index of the attempt about to be made. -/
def sendLoop (attempts : Nat → AttemptOutcome) : Nat → Nat → SendResult
  | budget, i =>
      let o := attempts i
      if attemptSucceeded o then .success (i + 1)
      else if retriable o then
        match budget with
        | 0 => .failure o (i + 1)
        | b + 1 => sendLoop attempts b (i + 1)
      else .failure o (i + 1)

/-- One outbound request: initial attempt plus at most `maxRetries` retries. -/
def sendRequest (attempts : Nat → AttemptOutcome) : SendResult :=
  sendLoop attempts maxRetries 0

/-- Per-ExportBatch result, aggregated into the invocation's final status. -/
inductive ExportOutcome where
  | success : ExportOutcome
  | partialFailure : Nat → ExportOutcome
  | failure : ExportOutcome
deriving Repr, DecidableEq

/-- The ExportOutcome recorded for a single-request export group. -/
def outcomeOfSend : SendResult → ExportOutcome
  | .success _ => .success
  | .failure _ _ => .failure

/-! ## Forwarder Orchestrator (C2) -/

/-- A group delivered nothing only in the `failure` case; `success` and
`partialFailure` both delivered at least part of the group. -/
def groupFailed : ExportOutcome → Bool
  | .failure => true
  | _ => false

/-- The distinct vendorKeys occurring in a decoded payload sequence. -/
def vendorsOf {β : Type} (ps : List (String × β)) : List String :=
  (ps.map Prod.fst).dedup

/-- The payloads of one vendor's export group. -/
def groupPayloads {β : Type} (ps : List (String × β)) (v : String) : List β :=
  (ps.filter (fun p => p.1 == v)).map Prod.snd

/-- Export each resolved vendor group; unresolved vendors form no group. -/
def exportGroups {β : Type} (ps : List (String × β))
    (resolveV : String → Option CollectorConfig)
    (exportG : CollectorConfig → List β → ExportOutcome) : List ExportOutcome :=
  (vendorsOf ps).filterMap
    (fun v => (resolveV v).map (fun cfg => exportG cfg (groupPayloads ps v)))

/-- Count of records whose vendor resolved (these reach the Exporter). -/
def processedCount {β : Type} (ps : List (String × β))
    (resolveV : String → Option CollectorConfig) : Nat :=
  (ps.filter (fun p => (resolveV p.1).isSome)).length

/-- Count of records dropped because their vendor did not resolve. -/
def droppedCount {β : Type} (ps : List (String × β))
    (resolveV : String → Option CollectorConfig) : Nat :=
  (ps.filter (fun p => (resolveV p.1).isNone)).length

/-- The invocation's terminal result: the success flag plus the summary
counts the orchestrator logs. -/
structure InvocationResult where
  ok : Bool
  processed : Nat
  dropped : Nat
  failedGroups : Nat
deriving Repr, DecidableEq

/-- Modelled from the spec: the Orchestrator's `Decoding → Resolving →
Exporting → Done` pass, absent from the visible source. A `MalformedBatch`
decode error short-circuits to overall failure; otherwise unresolved vendors
are dropped, each resolved group is exported, and the invocation is reported
failed only when there was at least one group and every group failed. -/
def orchestrate {β : Type} (decoded : Except Unit (List (String × β)))
    (resolveV : String → Option CollectorConfig)
    (exportG : CollectorConfig → List β → ExportOutcome) : InvocationResult :=
  match decoded with
  | .error _ => { ok := false, processed := 0, dropped := 0, failedGroups := 0 }
  | .ok ps =>
      let outs := exportGroups ps resolveV exportG
      let allFailed := !outs.isEmpty && outs.all groupFailed
      { ok := !allFailed
        processed := processedCount ps resolveV
        dropped := droppedCount ps resolveV
        failedGroups := (outs.filter groupFailed).length }

/-! ## Account-wide subscription-filter delivery (C6, C10) -/

/-- The log groups the policy's `selectionCriteria` excludes, mirroring
`LogGroupName NOT IN ["/aws/lambda/forwarder-lambda"]` (line 268). -/
def excludedLogGroups : List String :=
  ["/aws/lambda/" ++ forwarderFunctionName]

/-- Modelled from the spec: CloudWatch Logs filter-pattern semantics for the
stack's pattern `\x7b $.__otel_otlp_stdout = * \x7d` — it matches a JSON log body
exactly when the body contains the field `__otel_otlp_stdout`, with any
value. -/
def matchesFilterPat (body : Json) : Bool :=
  (getField body sentinelField).isSome

/-- Modelled from the spec: delivery decision of the account-wide
subscription-filter policy. A record is delivered to the forwarder when its
log group is inside the policy's selection criteria (i.e. not excluded) and
its JSON body matches the filter pattern. -/
def policyDelivers (logGroup : String) (body : Json) : Bool :=
  !(excludedLogGroups.contains logGroup) && matchesFilterPat body

/-! ## Client-node quote handler (C9, from `src/functions/client-node/index.ts`) -/

/-- A validated quote, per the zod `QuoteSchema`. -/
structure Quote where
  id : Int
  quote : String
  author : String
deriving Repr, DecidableEq

/-- A quote rendered back to JSON for the response body. -/
def quoteToJson (q : Quote) : Json :=
  Json.obj
    [("id", Json.num q.id),
     ("quote", Json.str q.quote),
     ("author", Json.str q.author)]

/-- The structured response value of `lambdaHandler`. -/
structure HandlerResponse where
  statusCode : Nat
  body : Json
  contentType : String
deriving Repr

/-- The client-node `lambdaHandler` (part_002 lines 76-115). Its two awaited
steps are shallow-embedded as `Except`-valued collaborators: `getQuote` is
the result of `getRandomQuote()` and `save` the result of `saveQuote(quote)`,
an `error` value standing for a thrown exception carrying its message. The
try/catch turns any throw into a 500 response; both success and failure
return a JSON response with a `Content-Type: application/json` header. -/
def lambdaHandler (getQuote : Except String Quote)
    (save : Quote → Except String Json) : HandlerResponse :=
  match getQuote with
  | .error e => errorResponse e
  | .ok q =>
      match save q with
      | .error e => errorResponse e
      | .ok saved =>
          { statusCode := 200
            body := Json.obj
              [("message", Json.str "Quote Processed Successfully"),
               ("quote", quoteToJson q),
               ("savedResponse", saved)]
            contentType := "application/json" }
where
  errorResponse (e : String) : HandlerResponse :=
    { statusCode := 500
      body := Json.obj
        [("message", Json.str "Error processing quote"),
         ("error", Json.str e)]
      contentType := "application/json" }

/-- Lookup in an environment block (first match). -/
def envValue : List (String × String) → String → Option String
  | [], _ => none
  | (k, v) :: rest, key => if k == key then some v else envValue rest key

/-! ## Helper lemmas -/

theorem cacheLookup_cacheInsert (st : CacheState) (v : String) (e : CacheEntry) :
    cacheLookup (cacheInsert st v e) v = some e := by
  induction st with
  | nil => simp [cacheInsert, cacheLookup]
  | cons hd tl ih =>
      obtain ⟨k, old⟩ := hd
      cases h : k == v with
      | true => simp [cacheInsert, cacheLookup, h]
      | false => simp [cacheInsert, cacheLookup, h, ih]

theorem resolveFetch_fetched (f : String → Option CollectorConfig)
    (kb : String) (now : Nat) (st : CacheState) (v : String) :
    (resolve.resolveFetch f kb now st v).fetched = [secretKeyFor kb v] := by
  cases h : f (secretKeyFor kb v) <;> simp [resolve.resolveFetch, h]

theorem resolveFetch_congr (f g : String → Option CollectorConfig)
    (kb : String) (now : Nat) (st : CacheState) (v : String)
    (hfg : f (secretKeyFor kb v) = g (secretKeyFor kb v)) :
    resolve.resolveFetch f kb now st v = resolve.resolveFetch g kb now st v := by
  unfold resolve.resolveFetch
  rw [hfg]

theorem resolveFetch_success (f : String → Option CollectorConfig)
    (kb : String) (now : Nat) (st : CacheState) (v : String)
    (cfg : CollectorConfig) (hcfg : f (secretKeyFor kb v) = some cfg) :
    resolve.resolveFetch f kb now st v
      = { result := some cfg
          state := cacheInsert st v { value := cfg, fetchedAt := now }
          fetched := [secretKeyFor kb v] } := by
  unfold resolve.resolveFetch
  rw [hcfg]

theorem resolve_hit (f : String → Option CollectorConfig) (kb : String)
    (ttl now : Nat) (st : CacheState) (v : String) (e : CacheEntry)
    (h : cacheLookup st v = some e) (hf : now - e.fetchedAt ≤ ttl) :
    resolve f kb ttl now st v
      = { result := some e.value, state := st, fetched := [] } := by
  unfold resolve
  rw [h]
  simp [hf]

theorem resolve_stale (f : String → Option CollectorConfig) (kb : String)
    (ttl now : Nat) (st : CacheState) (v : String) (e : CacheEntry)
    (h : cacheLookup st v = some e) (hf : ttl < now - e.fetchedAt) :
    resolve f kb ttl now st v = resolve.resolveFetch f kb now st v := by
  unfold resolve
  rw [h]
  simp [Nat.not_le.mpr hf]

theorem resolve_miss (f : String → Option CollectorConfig) (kb : String)
    (ttl now : Nat) (st : CacheState) (v : String)
    (h : cacheLookup st v = none) :
    resolve f kb ttl now st v = resolve.resolveFetch f kb now st v := by
  unfold resolve
  rw [h]

theorem resolve_fetched_eq (f : String → Option CollectorConfig) (kb : String)
    (ttl now : Nat) (st : CacheState) (v k : String)
    (hk : k ∈ (resolve f kb ttl now st v).fetched) : k = secretKeyFor kb v := by
  cases hl : cacheLookup st v with
  | none =>
      rw [resolve_miss f kb ttl now st v hl, resolveFetch_fetched] at hk
      simpa using hk
  | some e =>
      by_cases hf : now - e.fetchedAt ≤ ttl
      · rw [resolve_hit f kb ttl now st v e hl hf] at hk
        simp at hk
      · rw [resolve_stale f kb ttl now st v e hl (Nat.lt_of_not_le hf),
          resolveFetch_fetched] at hk
        simpa using hk

/-! ## C1 -/

/-- C1 counterexample: the demo vendor secret the stack provisions — the JSON
object `\x7bname: "vendor", endpoint, auth\x7d` — does not parse against the
spec's claimed shape `\x7bendpoint: string, headers: mapping of string to
string\x7d`, shown at a concrete deployment environment. -/
theorem C1_counterexample :
    parseCollectorSecret
      (vendorSecretJson "https://collector.example.com/v1/traces" "x-api-key=demo")
      = none := rfl

/-- C1 (amended): for every deployment environment, the vendor secret the
stack stores is the JSON object `\x7bname: "vendor", endpoint: string, auth:
string\x7d` — `auth` a single header string. It parses into `(endpoint, auth)`,
but it carries no `headers` field at all, so parsing it against the spec's
`\x7bendpoint, headers: string-to-string mapping\x7d` shape fails. -/
theorem C1_amended_secret_shape (endpoint headersEnv : String) :
    parseStoredVendorSecret (vendorSecretJson endpoint headersEnv)
      = some (endpoint, headersEnv)
    ∧ getField (vendorSecretJson endpoint headersEnv) "headers" = none
    ∧ parseCollectorSecret (vendorSecretJson endpoint headersEnv) = none :=
  ⟨rfl, rfl, rfl⟩

/-! ## C7 -/

/-- C7: `resolve(v)` touches the secret store only at the key obtained by
concatenating the configured prefix with `v` (it is insensitive to the store's
value at every other key, and every key it fetches is the concatenation); the
stack's prefix constant derives the stored demo secret name
`serverless-otlp-forwarder/keys/vendor` for vendorKey `vendor`, and that
prefix is passed to the forwarder as `COLLECTORS_SECRETS_KEY_PREFIX`. -/
theorem C7_secret_key_derivation :
    (∀ (f g : String → Option CollectorConfig) (kb : String) (ttl now : Nat)
        (st : CacheState) (v : String),
        f (kb ++ v) = g (kb ++ v) →
        resolve f kb ttl now st v = resolve g kb ttl now st v)
    ∧ (∀ (f : String → Option CollectorConfig) (kb : String) (ttl now : Nat)
        (st : CacheState) (v k : String),
        k ∈ (resolve f kb ttl now st v).fetched → k = kb ++ v)
    ∧ secretKeyFor collectorsSecretsKeyBase "vendor" = vendorSecretName
    ∧ vendorSecretName = "serverless-otlp-forwarder/keys/vendor"
    ∧ (∀ ep hd, envValue (forwarderEnvironment ep hd) "COLLECTORS_SECRETS_KEY_PREFIX"
        = some collectorsSecretsKeyBase) := by
  refine ⟨?_, ?_, rfl, rfl, fun ep hd => rfl⟩
  · intro f g kb ttl now st v hfg
    cases hl : cacheLookup st v with
    | none =>
        rw [resolve_miss f kb ttl now st v hl, resolve_miss g kb ttl now st v hl]
        exact resolveFetch_congr f g kb now st v hfg
    | some e =>
        by_cases hf : now - e.fetchedAt ≤ ttl
        · rw [resolve_hit f kb ttl now st v e hl hf,
            resolve_hit g kb ttl now st v e hl hf]
        · rw [resolve_stale f kb ttl now st v e hl (Nat.lt_of_not_le hf),
            resolve_stale g kb ttl now st v e hl (Nat.lt_of_not_le hf)]
          exact resolveFetch_congr f g kb now st v hfg
  · exact fun f kb ttl now st v k hk => resolve_fetched_eq f kb ttl now st v k hk

/-- Demo collector config used for concrete instances. -/
def demoConfig : CollectorConfig :=
  { endpoint := "https://collector.example.com/v1/traces"
    headers := [("x-api-key", "demo")]
    protocol := "http/protobuf" }

/-- A secret store holding only the demo vendor secret. -/
def demoFetchA : String → Option CollectorConfig :=
  fun k => if k == vendorSecretName then some demoConfig else none

/-- A secret store answering the demo config at every key. -/
def demoFetchB : String → Option CollectorConfig :=
  fun _ => some demoConfig

theorem C7_witness :
    (resolve demoFetchA collectorsSecretsKeyBase 300 0 [] "vendor"
      = resolve demoFetchB collectorsSecretsKeyBase 300 0 [] "vendor")
    ∧ "serverless-otlp-forwarder/keys/vendor" = collectorsSecretsKeyBase ++ "vendor" :=
  ⟨C7_secret_key_derivation.1 demoFetchA demoFetchB collectorsSecretsKeyBase
      300 0 [] "vendor" (by decide),
   C7_secret_key_derivation.2.1 demoFetchB collectorsSecretsKeyBase 300 0 []
      "vendor" "serverless-otlp-forwarder/keys/vendor" (by decide)⟩

/-! ## C3 -/

/-- C3: a resolve while a cache entry is fresh (`now - fetchedAt <= ttl`)
performs no secret-store fetch and returns the entry's config with the cache
unchanged; a resolve on a stale entry (`now - fetchedAt > ttl`) performs
exactly one fetch and, when the fetch succeeds, replaces the entry with the
newly fetched config stamped at `now`; and the deployed stack fixes the TTL
at 300 seconds via `COLLECTORS_CACHE_TTL_SECONDS`. -/
theorem C3_cache_ttl (f : String → Option CollectorConfig) (kb : String)
    (ttl now : Nat) (st : CacheState) (v : String) (e : CacheEntry)
    (cfg : CollectorConfig) :
    (cacheLookup st v = some e → now - e.fetchedAt ≤ ttl →
      resolve f kb ttl now st v
        = { result := some e.value, state := st, fetched := [] })
    ∧ (cacheLookup st v = some e → ttl < now - e.fetchedAt →
        (resolve f kb ttl now st v).fetched = [secretKeyFor kb v]
        ∧ (f (secretKeyFor kb v) = some cfg →
            (resolve f kb ttl now st v).result = some cfg
            ∧ cacheLookup (resolve f kb ttl now st v).state v
                = some { value := cfg, fetchedAt := now }))
    ∧ (∀ ep hd, envValue (forwarderEnvironment ep hd) "COLLECTORS_CACHE_TTL_SECONDS"
        = some "300") := by
  refine ⟨fun h hf => resolve_hit f kb ttl now st v e h hf, ?_, fun ep hd => rfl⟩
  intro h hst
  rw [resolve_stale f kb ttl now st v e h hst]
  refine ⟨resolveFetch_fetched f kb now st v, ?_⟩
  intro hcfg
  rw [resolveFetch_success f kb now st v cfg hcfg]
  exact ⟨rfl, cacheLookup_cacheInsert st v { value := cfg, fetchedAt := now }⟩

/-- A cache entry fetched at time 0 holding the demo config. -/
def demoEntry : CacheEntry := { value := demoConfig, fetchedAt := 0 }

/-- A warm cache holding the demo vendor's entry. -/
def demoCache : CacheState := [("vendor", demoEntry)]

/-- A second, different collector config (refreshed credentials). -/
def demoConfigFresh : CollectorConfig :=
  { endpoint := "https://other.example.com/v1/traces"
    headers := []
    protocol := "http/json" }

/-- A secret store answering the refreshed config at every key. -/
def demoFetchFresh : String → Option CollectorConfig :=
  fun _ => some demoConfigFresh

theorem C3_witness :
    (resolve demoFetchFresh collectorsSecretsKeyBase 300 100 demoCache "vendor"
      = { result := some demoConfig, state := demoCache, fetched := [] })
    ∧ (resolve demoFetchFresh collectorsSecretsKeyBase 300 1000 demoCache "vendor").fetched
        = [secretKeyFor collectorsSecretsKeyBase "vendor"]
    ∧ cacheLookup
        (resolve demoFetchFresh collectorsSecretsKeyBase 300 1000 demoCache "vendor").state
        "vendor"
      = some { value := demoConfigFresh, fetchedAt := 1000 } := by
  refine ⟨?_, ?_, ?_⟩
  · exact (C3_cache_ttl demoFetchFresh collectorsSecretsKeyBase 300 100 demoCache
      "vendor" demoEntry demoConfigFresh).1 rfl (by decide)
  · exact ((C3_cache_ttl demoFetchFresh collectorsSecretsKeyBase 300 1000 demoCache
      "vendor" demoEntry demoConfigFresh).2.1 rfl (by decide)).1
  · exact (((C3_cache_ttl demoFetchFresh collectorsSecretsKeyBase 300 1000 demoCache
      "vendor" demoEntry demoConfigFresh).2.1 rfl (by decide)).2 rfl).2

/-! ## C8 -/

theorem string_append_cancel_left (kb a b : String) (h : kb ++ a = kb ++ b) :
    a = b := by
  have hd : (kb ++ a).data = (kb ++ b).data := congrArg String.data h
  rw [String.data_append, String.data_append] at hd
  exact String.ext (List.append_cancel_left hd)

theorem secretKeyFor_inj (kb a b : String)
    (h : secretKeyFor kb a = secretKeyFor kb b) : a = b :=
  string_append_cancel_left kb a b h

theorem resolve_fetched_cases (f : String → Option CollectorConfig)
    (kb : String) (ttl now : Nat) (st : CacheState) (v : String) :
    (resolve f kb ttl now st v).fetched = []
    ∨ (resolve f kb ttl now st v).fetched = [secretKeyFor kb v] := by
  cases hl : cacheLookup st v with
  | none =>
      rw [resolve_miss f kb ttl now st v hl, resolveFetch_fetched]
      exact Or.inr rfl
  | some e =>
      by_cases hf : now - e.fetchedAt ≤ ttl
      · rw [resolve_hit f kb ttl now st v e hl hf]
        exact Or.inl rfl
      · rw [resolve_stale f kb ttl now st v e hl (Nat.lt_of_not_le hf),
          resolveFetch_fetched]
        exact Or.inr rfl

theorem resolveAll_count_zero (f : String → Option CollectorConfig)
    (kb : String) (ttl now : Nat) (L : List String) :
    ∀ (st : CacheState) (v : String), v ∉ L →
      ((resolveAll f kb ttl now st L).2).count (secretKeyFor kb v) = 0 := by
  induction L with
  | nil => intro st v _; simp [resolveAll]
  | cons a rest ih =>
      intro st v hv
      have hva : v ≠ a := fun h => hv (h ▸ List.mem_cons_self a rest)
      have hvr : v ∉ rest := fun h => hv (List.mem_cons_of_mem a h)
      have hkey : secretKeyFor kb v ≠ secretKeyFor kb a :=
        fun h => hva (secretKeyFor_inj kb v a h)
      simp only [resolveAll, List.count_append]
      rcases resolve_fetched_cases f kb ttl now st a with hc | hc
      · rw [hc]
        simp [ih _ v hvr]
      · rw [hc]
        simp [List.count_singleton, hkey, ih _ v hvr]

theorem resolveAll_count_le (f : String → Option CollectorConfig)
    (kb : String) (ttl now : Nat) (L : List String) :
    ∀ (st : CacheState) (v : String), L.Nodup →
      ((resolveAll f kb ttl now st L).2).count (secretKeyFor kb v) ≤ 1 := by
  induction L with
  | nil => intro st v _; simp [resolveAll]
  | cons a rest ih =>
      intro st v hnd
      obtain ⟨ha, hrest⟩ := List.nodup_cons.mp hnd
      simp only [resolveAll, List.count_append]
      by_cases hva : v = a
      · subst hva
        have h0 := resolveAll_count_zero f kb ttl now rest
          (resolve f kb ttl now st v).state v ha
        rcases resolve_fetched_cases f kb ttl now st v with hc | hc <;>
          simp [hc, h0, List.count_le_length]
      · have hkey : secretKeyFor kb v ≠ secretKeyFor kb a :=
          fun h => hva (secretKeyFor_inj kb v a h)
        have hle := ih (resolve f kb ttl now st a).state v hrest
        rcases resolve_fetched_cases f kb ttl now st a with hc | hc <;>
          simp [hc, List.count_singleton, hkey, hle]

/-- C8: processing one batch performs at most one secret-store fetch per
distinct vendorKey — the Resolving state deduplicates the batch's vendorKeys
before calling the Credential Cache, so the secret-store key of any vendorKey
occurs at most once among the fetches of the whole batch, however many
records of the batch map to that vendorKey. -/
theorem C8_fetch_dedup (f : String → Option CollectorConfig) (kb : String)
    (ttl now : Nat) (st : CacheState) (recordVendorKeys : List String)
    (v : String) :
    ((resolveBatch f kb ttl now st recordVendorKeys).2).count (secretKeyFor kb v)
      ≤ 1 := by
  unfold resolveBatch
  exact resolveAll_count_le f kb ttl now recordVendorKeys.dedup st v
    (List.nodup_dedup recordVendorKeys)

/-! ## C4 -/

theorem decodeRecords_insert_skip {β : Type} (P : DecoderPrims β)
    (r : LogRecord) (h : decodeRecord P r = .skip) (pre post : List LogRecord) :
    decodeBatch.decodeRecords P (pre ++ r :: post)
      = decodeBatch.decodeRecords P (pre ++ post) := by
  induction pre with
  | nil => simp only [List.nil_append, decodeBatch.decodeRecords, h]
  | cons a pre' ih =>
      simp only [List.cons_append, decodeBatch.decodeRecords, List.append_eq]
      rw [ih]

theorem decodeRecords_insert_err {β : Type} (P : DecoderPrims β)
    (r : LogRecord) (h : decodeRecord P r = .err) (pre post : List LogRecord) :
    (decodeBatch.decodeRecords P (pre ++ r :: post)).1
      = (decodeBatch.decodeRecords P (pre ++ post)).1
    ∧ (decodeBatch.decodeRecords P (pre ++ r :: post)).2
      = (decodeBatch.decodeRecords P (pre ++ post)).2 + 1 := by
  induction pre with
  | nil => simp [decodeBatch.decodeRecords, h]
  | cons a pre' ih =>
      cases hda : decodeRecord P a <;>
        simp only [List.cons_append, decodeBatch.decodeRecords, hda,
          List.append_eq] <;>
        exact ⟨by simp [ih.1], by simp [ih.2]⟩

/-- C4: decoder isolation — a record that is silently skipped (JSON parse
failure or missing sentinel) leaves the batch's decode output exactly as if
the record were absent; a record with a per-record decode error (bad base64,
bad protocol buffers) leaves the payload sequence exactly as if the record
were absent while incrementing only the recorded error count; in neither case
does the failing record abort decoding of the rest of the batch. -/
theorem C4_decoder_isolation {β : Type} (P : DecoderPrims β)
    (lg ow : String) (pre post : List LogRecord) (r : LogRecord) :
    (decodeRecord P r = .skip →
      decodeBatch P ⟨lg, ow, pre ++ r :: post⟩
        = decodeBatch P ⟨lg, ow, pre ++ post⟩)
    ∧ (decodeRecord P r = .err →
      (decodeBatch P ⟨lg, ow, pre ++ r :: post⟩).1
        = (decodeBatch P ⟨lg, ow, pre ++ post⟩).1
      ∧ (decodeBatch P ⟨lg, ow, pre ++ r :: post⟩).2
        = (decodeBatch P ⟨lg, ow, pre ++ post⟩).2 + 1) := by
  constructor
  · intro h
    exact decodeRecords_insert_skip P r h pre post
  · intro h
    exact decodeRecords_insert_err P r h pre post

/-- Concrete decoder primitives: `otlp` messages carry a well-formed
sentinel payload, `corrupt` messages carry a sentinel whose base64 is
invalid, anything else is not JSON. -/
def demoPrims : DecoderPrims Nat :=
  { jsonParse := fun s =>
      if s == "otlp" then some (Json.obj [(sentinelField, Json.str "AAAA")])
      else if s == "corrupt" then some (Json.obj [(sentinelField, Json.str "!!")])
      else none
    b64decode := fun s => if s == "AAAA" then some [0, 0, 0] else none
    pbDecode := fun _ => some 7
    vendorKeyOf := fun r => r.logGroup }

/-- A well-formed OTLP-bearing record. -/
def recGood : LogRecord := { timestamp := 0, logGroup := "g", message := "otlp" }

/-- A sentinel-bearing record with corrupted base64. -/
def recBad : LogRecord := { timestamp := 1, logGroup := "g", message := "corrupt" }

theorem C4_witness :
    (decodeBatch demoPrims ⟨"g", "o", [recGood, recBad, recGood]⟩).1
      = (decodeBatch demoPrims ⟨"g", "o", [recGood, recGood]⟩).1
    ∧ (decodeBatch demoPrims ⟨"g", "o", [recGood, recBad, recGood]⟩).2
      = (decodeBatch demoPrims ⟨"g", "o", [recGood, recGood]⟩).2 + 1 :=
  (C4_decoder_isolation demoPrims "g" "o" [recGood] [recGood] recBad).2 rfl

/-! ## C5 -/

/-- C5: the Exporter's retry policy — the budget is 3 retries; a successful
attempt ends the request at once; a retriable failure (connection failure,
HTTP 5xx or 429) with budget remaining re-attempts, consuming one unit of
budget; any other failing outcome (in particular every 4xx other than 429)
terminates the request immediately as a failure; a transient retriable
failure followed by a success within the budget yields Success; attempts that
are all retriable failures exhaust the budget and end as a recorded failure
after `maxRetries + 1` attempts, mapped to a failure ExportOutcome. -/
theorem C5_export_retry :
    maxRetries = 3
    ∧ (∀ (att : Nat → AttemptOutcome) (b i : Nat),
        attemptSucceeded (att i) = true → sendLoop att b i = .success (i + 1))
    ∧ (∀ (att : Nat → AttemptOutcome) (b i : Nat),
        attemptSucceeded (att i) = false → retriable (att i) = true →
        sendLoop att (b + 1) i = sendLoop att b (i + 1))
    ∧ (∀ (att : Nat → AttemptOutcome) (b i : Nat),
        attemptSucceeded (att i) = false → retriable (att i) = false →
        sendLoop att b i = .failure (att i) (i + 1))
    ∧ (∀ c : Nat, 400 ≤ c → c < 500 → c ≠ 429 →
        retriable (.httpStatus c) = false)
    ∧ (∀ att : Nat → AttemptOutcome,
        attemptSucceeded (att 0) = false → retriable (att 0) = true →
        attemptSucceeded (att 1) = true → sendRequest att = .success 2)
    ∧ (∀ att : Nat → AttemptOutcome,
        (∀ i, i ≤ maxRetries →
          attemptSucceeded (att i) = false ∧ retriable (att i) = true) →
        sendRequest att = .failure (att maxRetries) (maxRetries + 1)
        ∧ outcomeOfSend (sendRequest att) = .failure) := by
  have hsucc : ∀ (att : Nat → AttemptOutcome) (b i : Nat),
      attemptSucceeded (att i) = true → sendLoop att b i = .success (i + 1) := by
    intro att b i h
    cases b <;> simp [sendLoop, h]
  have hstep : ∀ (att : Nat → AttemptOutcome) (b i : Nat),
      attemptSucceeded (att i) = false → retriable (att i) = true →
      sendLoop att (b + 1) i = sendLoop att b (i + 1) := by
    intro att b i hs hr
    simp [sendLoop, hs, hr]
  have hterm : ∀ (att : Nat → AttemptOutcome) (b i : Nat),
      attemptSucceeded (att i) = false → retriable (att i) = false →
      sendLoop att b i = .failure (att i) (i + 1) := by
    intro att b i hs hr
    cases b <;> simp [sendLoop, hs, hr]
  refine ⟨rfl, hsucc, hstep, hterm, ?_, ?_, ?_⟩
  · intro c h4 h5 h9
    simp only [retriable, Bool.or_eq_false_iff, Bool.and_eq_false_iff]
    constructor
    · left
      simpa using Nat.lt_of_lt_of_le h5 (by norm_num)
    · simpa using h9
  · intro att h0 hr0 h1
    unfold sendRequest maxRetries
    rw [hstep att 2 0 h0 hr0]
    exact hsucc att 2 1 h1
  · intro att hall
    have hfin : sendRequest att = .failure (att maxRetries) (maxRetries + 1) := by
      unfold sendRequest maxRetries
      rw [hstep att 2 0 (hall 0 (by decide)).1 (hall 0 (by decide)).2,
        hstep att 1 1 (hall 1 (by decide)).1 (hall 1 (by decide)).2,
        hstep att 0 2 (hall 2 (by decide)).1 (hall 2 (by decide)).2]
      simp [sendLoop, (hall 3 (by decide)).1, (hall 3 (by decide)).2,
        maxRetries]
    exact ⟨hfin, by rw [hfin]; rfl⟩

/-- One simulated network history: a 503 on the first attempt, 200 after. -/
def transientAttempts : Nat → AttemptOutcome :=
  fun i => if i == 0 then .httpStatus 503 else .httpStatus 200

theorem C5_witness :
    sendRequest transientAttempts = .success 2 :=
  C5_export_retry.2.2.2.2.2.1 transientAttempts (by decide) (by decide) (by decide)

/-! ## C2 -/

theorem decodeRecords_all_skip {β : Type} (P : DecoderPrims β)
    (L : List LogRecord) (h : ∀ r ∈ L, decodeRecord P r = .skip) :
    decodeBatch.decodeRecords P L = ([], 0) := by
  induction L with
  | nil => rfl
  | cons a rest ih =>
      simp only [decodeBatch.decodeRecords, h a (List.mem_cons_self a rest)]
      exact ih (fun r hr => h r (List.mem_cons_of_mem a hr))

/-- C2: the invocation is reported failed exactly when no telemetry could be
delivered — a `MalformedBatch` decode error yields overall failure; with a
decoded payload sequence, the result is failure iff there was at least one
export group and every group failed; any group that did not fail forces an
overall success (with the failure counts embedded); and a batch whose records
all lack the sentinel decodes to nothing and reports success with zero
processed and zero dropped. -/
theorem C2_invocation_outcome {β : Type}
    (resolveV : String → Option CollectorConfig)
    (exportG : CollectorConfig → List β → ExportOutcome)
    (ps : List (String × β)) :
    (orchestrate (Except.error ()) resolveV exportG).ok = false
    ∧ orchestrate (Except.ok ([] : List (String × β))) resolveV exportG
        = { ok := true, processed := 0, dropped := 0, failedGroups := 0 }
    ∧ ((orchestrate (Except.ok ps) resolveV exportG).ok = false ↔
        (exportGroups ps resolveV exportG ≠ []
          ∧ ∀ o ∈ exportGroups ps resolveV exportG, groupFailed o = true))
    ∧ ((∃ o ∈ exportGroups ps resolveV exportG, groupFailed o = false) →
        (orchestrate (Except.ok ps) resolveV exportG).ok = true)
    ∧ (∀ (P : DecoderPrims β) (batch : DeliveryBatch),
        (∀ r ∈ batch.records, decodeRecord P r = .skip) →
        orchestrate (Except.ok (decodeBatch P batch).1) resolveV exportG
          = { ok := true, processed := 0, dropped := 0, failedGroups := 0 }) := by
  have hempty : orchestrate (Except.ok ([] : List (String × β))) resolveV exportG
      = { ok := true, processed := 0, dropped := 0, failedGroups := 0 } := by
    simp [orchestrate, exportGroups, vendorsOf, processedCount, droppedCount]
  have hiff : (orchestrate (Except.ok ps) resolveV exportG).ok = false ↔
      (exportGroups ps resolveV exportG ≠ []
        ∧ ∀ o ∈ exportGroups ps resolveV exportG, groupFailed o = true) := by
    simp [orchestrate, List.all_eq_true, List.isEmpty_iff]
  refine ⟨rfl, hempty, hiff, ?_, ?_⟩
  · rintro ⟨o, ho, hgf⟩
    rcases Bool.eq_false_or_eq_true
        ((orchestrate (Except.ok ps) resolveV exportG).ok) with hb | hb
    · exact hb
    · have hall := (hiff.mp hb).2 o ho
      rw [hgf] at hall
      exact absurd hall (by simp)
  · intro P batch hsk
    have hd : decodeBatch P batch = ([], 0) := by
      unfold decodeBatch
      exact decodeRecords_all_skip P batch.records hsk
    rw [hd]
    exact hempty

/-- A registry that resolves every vendorKey to the demo config. -/
def demoResolve : String → Option CollectorConfig := fun _ => some demoConfig

/-- An exporter whose every group succeeds. -/
def demoExport : CollectorConfig → List Nat → ExportOutcome := fun _ _ => .success

theorem C2_witness :
    (orchestrate (Except.ok [("vendor", (1 : Nat))]) demoResolve demoExport).ok
      = true :=
  (C2_invocation_outcome demoResolve demoExport [("vendor", 1)]).2.2.2.1
    ⟨ExportOutcome.success, by decide, rfl⟩

/-! ## C6 -/

/-- A JSON log body carrying the sentinel field. -/
def sentinelBody : Json := Json.obj [(sentinelField, Json.str "payload")]

/-- C6 counterexample: a log record in the forwarder's own log group whose
JSON body contains `__otel_otlp_stdout` is nevertheless not delivered by the
account-wide policy (its selection criteria excludes that log group), so
"delivered iff the body contains the field" fails as stated. -/
theorem C6_counterexample :
    matchesFilterPat sentinelBody = true
    ∧ policyDelivers ("/aws/lambda/" ++ forwarderFunctionName) sentinelBody
        = false :=
  ⟨rfl, rfl⟩

/-- C6 (amended): the stack's configured filter pattern is
`\x7b $.__otel_otlp_stdout = * \x7d`, and a log record is delivered to the
forwarder by the account-wide subscription filter iff its JSON body contains
the field `__otel_otlp_stdout` (any value) AND its log group is not excluded
by the policy's selection criteria (the forwarder's own log group
`/aws/lambda/forwarder-lambda` is the single exclusion). -/
theorem C6_amended_delivery (g : String) (body : Json) :
    forwarderLambdaAccountSubFilter.filterPattern
      = "\x7b $.__otel_otlp_stdout = * \x7d"
    ∧ excludedLogGroups = ["/aws/lambda/forwarder-lambda"]
    ∧ (policyDelivers g body = true ↔
        ((getField body sentinelField).isSome = true ∧ g ∉ excludedLogGroups)) := by
  refine ⟨rfl, rfl, ?_⟩
  simp [policyDelivers, matchesFilterPat, and_comm]

/-! ## C10 -/

/-- C10: the account-wide subscription filter never subscribes the forwarder
to its own output — the policy's selection criteria is exactly
`LogGroupName NOT IN ["/aws/lambda/forwarder-lambda"]`, and no log body
whatsoever is delivered from the forwarder's own log group. -/
theorem C10_no_self_subscription :
    forwarderLambdaAccountSubFilter.selectionCriteria
      = "LogGroupName NOT IN [\"/aws/lambda/forwarder-lambda\"]"
    ∧ ∀ body : Json,
        policyDelivers ("/aws/lambda/" ++ forwarderFunctionName) body = false :=
  ⟨rfl, fun _ => rfl⟩

/-! ## C9 -/

/-- C9: the client-node quote handler never rejects — for every outcome of
its two awaited steps it returns a JSON response: status 200 whose body
carries the fetched quote and the save response when both steps succeed, and
status 500 whose body carries the error message whenever either step throws;
the status is always one of 200 and 500. -/
theorem C9_handler_no_reject (getQuote : Except String Quote)
    (save : Quote → Except String Json) (q : Quote) (s : Json) (e : String) :
    ((lambdaHandler getQuote save).statusCode = 200
      ∨ (lambdaHandler getQuote save).statusCode = 500)
    ∧ (lambdaHandler getQuote save).contentType = "application/json"
    ∧ (getQuote = .ok q → save q = .ok s →
        (lambdaHandler getQuote save).statusCode = 200
        ∧ getField (lambdaHandler getQuote save).body "quote"
            = some (quoteToJson q)
        ∧ getField (lambdaHandler getQuote save).body "savedResponse" = some s)
    ∧ (getQuote = .error e →
        (lambdaHandler getQuote save).statusCode = 500
        ∧ getField (lambdaHandler getQuote save).body "error"
            = some (Json.str e))
    ∧ (getQuote = .ok q → save q = .error e →
        (lambdaHandler getQuote save).statusCode = 500
        ∧ getField (lambdaHandler getQuote save).body "error"
            = some (Json.str e)) := by
  refine ⟨?_, ?_, ?_, ?_, ?_⟩
  · cases getQuote with
    | error e' => exact Or.inr rfl
    | ok q' =>
        cases hs : save q' with
        | error e' => exact Or.inr (by simp [lambdaHandler, hs, lambdaHandler.errorResponse])
        | ok s' => exact Or.inl (by simp [lambdaHandler, hs])
  · cases getQuote with
    | error e' => rfl
    | ok q' =>
        cases hs : save q' with
        | error e' => simp [lambdaHandler, hs, lambdaHandler.errorResponse]
        | ok s' => simp [lambdaHandler, hs]
  · intro h1 h2
    subst h1
    simp [lambdaHandler, h2, getField, lookupField]
  · intro h1
    subst h1
    exact ⟨rfl, rfl⟩
  · intro h1 h2
    subst h1
    simp [lambdaHandler, h2, lambdaHandler.errorResponse, getField, lookupField]

/-- The concrete quote used in the handler witness. -/
def demoQuote : Quote := { id := 1, quote := "hello", author := "anon" }

theorem C9_witness :
    (lambdaHandler (Except.ok demoQuote)
        (fun _ => Except.ok (Json.str "saved"))).statusCode = 200
    ∧ getField (lambdaHandler (Except.ok demoQuote)
        (fun _ => Except.ok (Json.str "saved"))).body "quote"
        = some (quoteToJson demoQuote)
    ∧ getField (lambdaHandler (Except.ok demoQuote)
        (fun _ => Except.ok (Json.str "saved"))).body "savedResponse"
        = some (Json.str "saved") :=
  (C9_handler_no_reject (Except.ok demoQuote)
    (fun _ => Except.ok (Json.str "saved")) demoQuote (Json.str "saved")
    "").2.2.1 rfl rfl
